import Mathlib

/-!
Verification of the builder abstraction and execution pipeline of the `ion`
build orchestrator (`ion/build.py`) against its natural-language
specification.  The Python source is shallowly embedded: pure fragments
become Lean functions, process invocations become explicit oracles
(`run : String → Int` gives the exit status of a test process, a
file-system predicate `fs : String → Bool` tells which paths exist), and
Python exceptions become `Except` results.  Exit statuses are modelled as
unbounded integers (`Int`), matching Python's arbitrary-precision `int`;
the `|=` accumulation in `RunTests` is `Int.lor`.
-/

namespace Ion

/-! ### Test scheduler (`TargetBuilder.RunTests`, build.py lines 820-905)

`RunTests` obtains the dependency dump, strips the trailing `#target`
marker from each key (`t.split('#target')[0]`), keeps the names ending in
`_test`, collapses them into a set, and then runs each one, either
serially with an early return on the first failure (`stop_on_failure`) or
all of them with a final bitwise-OR accumulation of the return codes.
Python's `set` iterates in an unspecified order; the embedding fixes one
definite order (`List.dedup`), which the claims do not depend on. -/

/-- Characters of the `'#target'` separator used by `t.split('#target')`. -/
def targetTag : List Char := "#target".data

/-- Everything before the first occurrence of `'#target'`, on character
lists: this is `t.split('#target')[0]` from build.py line 855. -/
def splitBeforeTargetTag : List Char → List Char
  | [] => []
  | c :: cs =>
    if List.isPrefixOf targetTag (c :: cs) then []
    else c :: splitBeforeTargetTag cs

/-- Embeds `t.split('#target')[0]` (build.py line 855). -/
def stripTargetSuffix (t : String) : String :=
  String.mk (splitBeforeTargetTag t.data)

/-- Embeds `t.endswith('_test')` (build.py line 858). -/
def endsWithTest (t : String) : Bool :=
  List.isSuffixOf "_test".data t.data

/-- Embeds lines 852-858 of build.py: the keys of the dependency dump are
stripped of their `#target` marker, filtered for the `_test` naming
convention, and collapsed into a set of test targets. -/
def testTargetsOf (depKeys : List String) : List String :=
  (((depKeys.map stripTargetSuffix).filter (fun t => endsWithTest t))).dedup

/-- Embeds the test-running loop of build.py lines 867-905.  `run t` is
the exit status of the test process for target `t` (the `.get()` of the
async result).  Returns the final status together with the list of
targets actually invoked, in invocation order.  In stop-on-failure mode a
non-zero status returns immediately (lines 879-888); otherwise the loop
finishes and the statuses are OR-ed together (lines 894-905). -/
def runTestsFrom (run : String → Int) (stopOnFailure : Bool) :
    List String → Int × List String
  | [] => (0, [])
  | t :: ts =>
    let retcode := run t
    if stopOnFailure = true ∧ retcode ≠ 0 then (retcode, [t])
    else
      let rest := runTestsFrom run stopOnFailure ts
      (Int.lor retcode rest.1, t :: rest.2)

/-- Embeds `TargetBuilder.RunTests` (build.py lines 820-905), with the
dependency dump abstracted to its list of keys `depKeys` and the test
processes abstracted to the exit-status oracle `run`.  The first
component is the returned status, the second the targets invoked. -/
def RunTests (run : String → Int) (depKeys : List String)
    (stopOnFailure : Bool) : Int × List String :=
  runTestsFrom run stopOnFailure (testTargetsOf depKeys)

/-! ### Helper lemmas about bitwise OR on Python integers -/

lemma natOr_eq_zero_iff (m n : Nat) : m ||| n = 0 ↔ m = 0 ∧ n = 0 := by
  constructor
  · intro h
    constructor
    · refine Nat.eq_of_testBit_eq fun i => ?_
      have hb := congrArg (fun x => Nat.testBit x i) h
      simp only [Nat.testBit_or, Nat.zero_testBit, Bool.or_eq_false_iff] at hb ⊢
      exact hb.1
    · refine Nat.eq_of_testBit_eq fun i => ?_
      have hb := congrArg (fun x => Nat.testBit x i) h
      simp only [Nat.testBit_or, Nat.zero_testBit, Bool.or_eq_false_iff] at hb ⊢
      exact hb.2
  · rintro ⟨rfl, rfl⟩
    simp

lemma intLor_eq_zero_iff (a b : Int) : Int.lor a b = 0 ↔ a = 0 ∧ b = 0 := by
  cases a with
  | ofNat m =>
    cases b with
    | ofNat n =>
      simp only [Int.lor, Int.ofNat_eq_coe]
      constructor
      · intro h
        have : (m ||| n : Nat) = 0 := by exact_mod_cast h
        rcases (natOr_eq_zero_iff m n).mp this with ⟨hm, hn⟩
        exact ⟨by exact_mod_cast hm, by exact_mod_cast hn⟩
      · rintro ⟨hm, hn⟩
        have hm0 : m = 0 := by exact_mod_cast hm
        have hn0 : n = 0 := by exact_mod_cast hn
        subst hm0; subst hn0; simp
    | negSucc n => simp [Int.lor]
  | negSucc m =>
    cases b with
    | ofNat n => simp [Int.lor]
    | negSucc n => simp [Int.lor]

lemma intLor_zero (a : Int) : Int.lor a 0 = a := by
  cases a with
  | ofNat m => simp [Int.lor]
  | negSucc m => simp [Int.lor, Nat.ldiff]

lemma zero_intLor (a : Int) : Int.lor 0 a = a := by
  cases a with
  | ofNat m => simp [Int.lor]
  | negSucc m => simp [Int.lor, Nat.ldiff]

/-! ### Helper lemmas about the test loop -/

lemma runTestsFrom_run_all (run : String → Int) (ts : List String) :
    runTestsFrom run false ts = ((ts.map run).foldr Int.lor 0, ts) := by
  induction ts with
  | nil => rfl
  | cons t ts ih => simp [runTestsFrom, ih]

lemma foldr_intLor_eq_zero_iff (l : List Int) :
    l.foldr Int.lor 0 = 0 ↔ ∀ x ∈ l, x = 0 := by
  induction l with
  | nil => simp
  | cons a l ih => simp [List.foldr_cons, intLor_eq_zero_iff, ih]

lemma runTestsFrom_stop (run : String → Int) :
    ∀ (ts : List String) (N : Nat) (hN : N < ts.length),
      run (ts.get ⟨N, hN⟩) ≠ 0 →
      (∀ i (hi : i < ts.length), i < N → run (ts.get ⟨i, hi⟩) = 0) →
      runTestsFrom run true ts = (run (ts.get ⟨N, hN⟩), ts.take (N + 1))
  | [], N, hN, _, _ => absurd hN (by simp)
  | t :: ts, 0, _, hfail, _ => by
    simp only [List.get] at hfail ⊢
    simp [runTestsFrom, hfail]
  | t :: ts, N + 1, hN, hfail, hpass => by
    have ht : run t = 0 := hpass 0 (by simp) (by omega)
    have ih := runTestsFrom_stop run ts N (by simpa using hN)
      (by simpa using hfail)
      (fun i hi hiN => hpass (i + 1) (by simpa using hi) (by omega))
    simp only [runTestsFrom, ht, ne_eq, not_true_eq_false, and_false,
      if_false, ih]
    simp [zero_intLor, List.take, List.get]

lemma runTestsFrom_invoked_take (run : String → Int) (stopOnFailure : Bool) :
    ∀ ts : List String, ∃ n, (runTestsFrom run stopOnFailure ts).2 = ts.take n
  | [] => ⟨0, rfl⟩
  | t :: ts => by
    rcases runTestsFrom_invoked_take run stopOnFailure ts with ⟨n, hn⟩
    by_cases h : stopOnFailure = true ∧ run t ≠ 0
    · exact ⟨1, by simp [runTestsFrom, h]⟩
    · exact ⟨n + 1, by simp [runTestsFrom, h, hn]⟩

lemma nodup_get_not_mem_take {l : List String} (hl : l.Nodup) (n j : Nat)
    (hj : j < l.length) (hnj : n ≤ j) : l.get ⟨j, hj⟩ ∉ l.take n := by
  intro hmem
  rcases List.mem_take_iff_getElem.mp hmem with ⟨i, hi, hig⟩
  have hil : i < l.length := lt_of_lt_of_le hi (by simp)
  have : i = j := by
    have hinj := List.nodup_iff_injective_get.mp hl
    have : l.get ⟨i, hil⟩ = l.get ⟨j, hj⟩ := by
      simpa [List.get_eq_getElem] using hig
    exact congrArg Fin.val (hinj this)
  omega

/-! ### Claim theorems about the test scheduler -/

/-- C1: in run-all mode (`stop_on_failure = False`), `RunTests` returns the
bitwise-OR of the return codes of all individual test invocations, and the
overall status is zero iff every individual return code is zero. -/
theorem runTests_run_all_or_aggregation (run : String → Int)
    (depKeys : List String) :
    (RunTests run depKeys false).1 =
        ((testTargetsOf depKeys).map run).foldr Int.lor 0 ∧
      ((RunTests run depKeys false).1 = 0 ↔
        ∀ t ∈ testTargetsOf depKeys, run t = 0) := by
  constructor
  · simp [RunTests, runTestsFrom_run_all]
  · simp [RunTests, runTestsFrom_run_all, foldr_intLor_eq_zero_iff]

/-- C2: in stop-on-failure mode, if the first failing target has index `N`
in iteration order then exactly the first `N + 1` targets are invoked (so
at most `N + 1`, and none after index `N`), and the returned status is
that first non-zero exit code. -/
theorem runTests_stop_on_failure_first_failure (run : String → Int)
    (depKeys : List String) (N : Nat)
    (hN : N < (testTargetsOf depKeys).length)
    (hfail : run ((testTargetsOf depKeys).get ⟨N, hN⟩) ≠ 0)
    (hpass : ∀ i (hi : i < (testTargetsOf depKeys).length), i < N →
        run ((testTargetsOf depKeys).get ⟨i, hi⟩) = 0) :
    (RunTests run depKeys true).2 = (testTargetsOf depKeys).take (N + 1) ∧
      (RunTests run depKeys true).2.length = N + 1 ∧
      (∀ j (hj : j < (testTargetsOf depKeys).length), N < j →
        (testTargetsOf depKeys).get ⟨j, hj⟩ ∉ (RunTests run depKeys true).2) ∧
      (RunTests run depKeys true).1 = run ((testTargetsOf depKeys).get ⟨N, hN⟩) := by
  have hmain := runTestsFrom_stop run (testTargetsOf depKeys) N hN hfail hpass
  refine ⟨?_, ?_, ?_, ?_⟩
  · simp [RunTests, hmain]
  · simp [RunTests, hmain]
    omega
  · intro j hj hNj
    simp only [RunTests, hmain]
    exact nodup_get_not_mem_take (List.nodup_dedup _) (N + 1) j hj (by omega)
  · simp [RunTests, hmain]

/-- Witness inputs for the stop-on-failure scenario: three test targets in
the dependency dump, of which the second fails with status 2. -/
def witnessRun : String → Int := fun t => if t = "b_test" then 2 else 0

/-- Witness dependency-dump keys for the stop-on-failure scenario. -/
def witnessKeys : List String :=
  ["a_test#target", "b_test#target", "c_test#target"]

/-- Witness for C2: on the concrete scenario, only the first two targets
run and the status is the first failure's exit code 2. -/
theorem runTests_stop_on_failure_witness :
    (RunTests witnessRun witnessKeys true).2 =
        (testTargetsOf witnessKeys).take 2 ∧
      (RunTests witnessRun witnessKeys true).1 = 2 := by
  have h := runTests_stop_on_failure_first_failure witnessRun witnessKeys 1
    (by decide) (by decide) (by decide)
  exact ⟨h.1, h.2.2.2.trans (by decide)⟩

/-- C10: the set of test targets executed by `RunTests` is deduplicated:
each distinct test-target name is invoked at most once, and in run-all
mode the invoked targets are exactly the deduplication of the
`#target`-stripped dump keys that end in `_test`. -/
theorem runTests_targets_deduplicated (run : String → Int)
    (depKeys : List String) (stopOnFailure : Bool) :
    (∀ name : String,
        ((RunTests run depKeys stopOnFailure).2).count name ≤ 1) ∧
      (RunTests run depKeys false).2 =
        ((depKeys.map stripTargetSuffix).filter
          (fun t => endsWithTest t)).dedup ∧
      (∀ name : String, name ∈ (RunTests run depKeys false).2 ↔
        name ∈ (depKeys.map stripTargetSuffix).filter
          (fun t => endsWithTest t)) := by
  refine ⟨?_, ?_, ?_⟩
  · rcases runTestsFrom_invoked_take run stopOnFailure (testTargetsOf depKeys)
      with ⟨n, hn⟩
    have hnodup : (RunTests run depKeys stopOnFailure).2.Nodup := by
      rw [RunTests, hn]
      exact List.Nodup.sublist (List.take_sublist _ _) (List.nodup_dedup _)
    exact List.nodup_iff_count_le_one.mp hnodup
  · simp [RunTests, runTestsFrom_run_all, testTargetsOf]
  · intro name
    simp [RunTests, runTestsFrom_run_all, testTargetsOf, List.mem_dedup]

/-! ### Builder registry and resolution (build.py lines 908-945, 2105-2130)

`BUILDER_REGISTRY` is an `OrderedDict` keyed by `(target_os, generator)`;
an association list models it in registration order.  `main` first tries
the exact `(args.os, gyp_generator)` key, then — only when the user did
not pass `-g` — falls back to the first registered builder for that OS,
and otherwise exits with a "no builder was found" error. -/

/-- A registry key `(<target_os>, <gyp_generator>)` as built by
`RegisterBuilder` (build.py line 943). -/
abbrev BuilderKey := String × Option String

/-- The ordered builder registry in registration order. -/
abbrev BuilderRegistry (β : Type) := List (BuilderKey × β)

/-- Embeds `key in BUILDER_REGISTRY` / `BUILDER_REGISTRY[key]` (lines
2112-2114). -/
def lookupRegistry {β : Type} (reg : BuilderRegistry β) (key : BuilderKey) :
    Option β :=
  (reg.find? (fun e => decide (e.1 = key))).map Prod.snd

/-- Embeds the fallback loop of `main` (lines 2118-2121): iterate the
registry keys in order and take the first whose OS component matches. -/
def firstBuilderForOS {β : Type} (reg : BuilderRegistry β) (osName : String) :
    Option β :=
  (reg.find? (fun e => decide (e.1.1 = osName))).map Prod.snd

/-- Outcome of builder resolution in `main` (lines 2109-2130): an
instantiated builder, the "no builder ... that uses the ... generator"
error (line 2123), or the "no builder was found for ..." error after a
failed fallback (line 2129).  The error outcomes carry no builder. -/
inductive ResolveResult (β : Type) where
  | builder (b : β)
  | noBuilderForGenerator
  | noBuilderForOS
deriving DecidableEq

/-- Embeds builder resolution in `main` (lines 2105-2130).  `ninja` is the
`--ninja` special case that forces the generator to `'ninja'` (line 2106);
`userGenerator` is `args.generator`. -/
def resolveBuilder {β : Type} (reg : BuilderRegistry β) (osName : String)
    (userGenerator : Option String) (ninja : Bool) : ResolveResult β :=
  let gypGenerator := if ninja then some "ninja" else userGenerator
  match lookupRegistry reg (osName, gypGenerator) with
  | some b => .builder b
  | none =>
    match userGenerator with
    | none =>
      match firstBuilderForOS reg osName with
      | some b => .builder b
      | none => .noBuilderForOS
    | some _ => .noBuilderForGenerator

/-- Counterexample to C3 as stated: with strategies registered under
`('linux', 'ninja')` and then `('linux', None)`, requesting `linux`
without naming a generator resolves through the exact `('linux', None)`
key to the second-registered strategy, not the first-registered one. -/
theorem resolveBuilder_not_always_first_registered :
    ¬ (∀ (reg : BuilderRegistry Nat) (osName : String) (b : Nat),
        resolveBuilder reg osName none false = .builder b →
        firstBuilderForOS reg osName = some b) := by
  intro h
  have hres := h [(("linux", some "ninja"), 0), (("linux", none), 1)]
    "linux" 1 (by decide)
  exact absurd hres (by decide)

/-- C3 (amended): when the user does not name a generator and no
`(platform, None)` key is registered, resolution yields the
first-registered strategy for that platform in registration order; when
the user names an explicit generator for which no `(platform, generator)`
key is registered, resolution fails with a "no builder found" error
without constructing any strategy. -/
theorem resolveBuilder_fallback_and_error {β : Type} (reg : BuilderRegistry β)
    (osName : String) :
    (∀ b : β, lookupRegistry reg (osName, none) = none →
        firstBuilderForOS reg osName = some b →
        resolveBuilder reg osName none false = .builder b) ∧
      (∀ g : String, lookupRegistry reg (osName, some g) = none →
        resolveBuilder reg osName (some g) false = .noBuilderForGenerator) := by
  constructor
  · intro b hnone hfirst
    simp [resolveBuilder, hnone, hfirst]
  · intro g hnone
    simp [resolveBuilder, hnone]

/-- Witness registry for the amended C3: builders for `('linux','ninja')`
and `('mac','ninja')`, no `None`-generator key. -/
def witnessRegistry : BuilderRegistry Nat :=
  [(("linux", some "ninja"), 0), (("mac", some "ninja"), 1)]

/-- Witness for the amended C3 at a concrete registry: the no-generator
request falls back to the first builder for linux, and an unregistered
explicit generator yields the error outcome. -/
theorem resolveBuilder_fallback_and_error_witness :
    resolveBuilder witnessRegistry "linux" none false =
        ResolveResult.builder 0 ∧
      resolveBuilder witnessRegistry "linux" (some "make") false =
        ResolveResult.noBuilderForGenerator :=
  ⟨(resolveBuilder_fallback_and_error witnessRegistry "linux").1 0
      (by decide) (by decide),
    (resolveBuilder_fallback_and_error witnessRegistry "linux").2 "make"
      (by decide)⟩

/-- C4: with strategies registered under `('linux', 'ninja')` and
`('linux', None)` in that order, requesting platform `linux` with no
generator named yields the strategy registered under the `None` generator
(the second-registered one). -/
theorem resolveBuilder_none_key_scenario :
    resolveBuilder
        [(("linux", some "ninja"), 10), (("linux", (none : Option String)), 20)]
        "linux" none false = ResolveResult.builder 20 := by
  decide

/-! ### Host-compatibility checks (build.py lines 494-496, 717-783)

`RunGyp` and `RunBuild` both begin with `if not self.CanBuildOnHost():
raise InvalidTargetOSError(...)`, before any flag construction, and only
then invoke gyp (`gyp.main(gyp_args)`) resp. the native build tool
(`subprocess.call(...)`).  The embedding records the external launches of
one operation as an event list, so "raises before any subprocess" is
"error outcome with an empty event list". -/

/-- The class attributes of a builder strategy that the host check uses. -/
structure BuilderSpec where
  targetOS : String
  possibleHostOS : List String

/-- Embeds `TargetBuilder.CanBuildOnHost` (lines 494-496):
`self.host_os in self.POSSIBLE_HOST_OS`. -/
def CanBuildOnHost (b : BuilderSpec) (hostOS : String) : Bool :=
  b.possibleHostOS.contains hostOS

/-- The script-specific exception relevant here (`InvalidTargetOSError`,
build.py lines 279-281). -/
inductive BuildError where
  | invalidTargetOSError
deriving DecidableEq

/-- External launches observable during one builder operation. -/
inductive ProcEvent where
  | gypInvocation
  | buildToolInvocation
deriving DecidableEq

/-- Embeds `TargetBuilder.RunGyp` (lines 717-753): the host check runs
first and raising skips the generator launch; otherwise gyp runs and its
status is returned.  `gypStatus` abstracts `gyp.main(gyp_args)`. -/
def RunGyp (b : BuilderSpec) (hostOS : String) (gypStatus : Int) :
    Except BuildError Int × List ProcEvent :=
  if ¬ CanBuildOnHost b hostOS then (.error .invalidTargetOSError, [])
  else (.ok gypStatus, [.gypInvocation])

/-- Embeds `TargetBuilder.RunBuild` (lines 755-783): the host check runs
first; otherwise the native build tool is invoked via `subprocess.call`
and its status returned.  `buildStatus` abstracts that call. -/
def RunBuild (b : BuilderSpec) (hostOS : String) (buildStatus : Int) :
    Except BuildError Int × List ProcEvent :=
  if ¬ CanBuildOnHost b hostOS then (.error .invalidTargetOSError, [])
  else (.ok buildStatus, [.buildToolInvocation])

/-- C8: `RunGyp` and `RunBuild` raise `InvalidTargetOSError` exactly when
the host OS is not in the strategy's `POSSIBLE_HOST_OS` allow-list, and
when they raise, no generator or build-tool launch has happened. -/
theorem runGyp_runBuild_host_check (b : BuilderSpec) (hostOS : String)
    (gypStatus buildStatus : Int) :
    (hostOS ∉ b.possibleHostOS →
        RunGyp b hostOS gypStatus = (.error .invalidTargetOSError, []) ∧
        RunBuild b hostOS buildStatus = (.error .invalidTargetOSError, [])) ∧
      (hostOS ∈ b.possibleHostOS →
        RunGyp b hostOS gypStatus = (.ok gypStatus, [.gypInvocation]) ∧
        RunBuild b hostOS buildStatus = (.ok buildStatus, [.buildToolInvocation])) := by
  constructor
  · intro hmem
    have hc : CanBuildOnHost b hostOS = false := by
      simp [CanBuildOnHost, List.contains, List.elem_eq_mem, hmem]
    exact ⟨by simp [RunGyp, hc], by simp [RunBuild, hc]⟩
  · intro hmem
    have hc : CanBuildOnHost b hostOS = true := by
      simp [CanBuildOnHost, List.contains, List.elem_eq_mem, hmem]
    exact ⟨by simp [RunGyp, hc], by simp [RunBuild, hc]⟩

/-- Witness builder spec: the linux builder, which can only build on a
linux host (`LinuxBuilder`, build.py lines 949-953). -/
def witnessLinuxBuilder : BuilderSpec :=
  { targetOS := "linux", possibleHostOS := ["linux"] }

/-- Witness for C8: on a windows host the linux builder raises before any
launch; on a linux host both operations run their external tool. -/
theorem runGyp_runBuild_host_check_witness :
    RunGyp witnessLinuxBuilder "win" 0 =
        (.error .invalidTargetOSError, []) ∧
      RunBuild witnessLinuxBuilder "linux" 7 =
        (.ok 7, [.buildToolInvocation]) :=
  ⟨((runGyp_runBuild_host_check witnessLinuxBuilder "win" 0 0).1
      (by decide)).1,
    ((runGyp_runBuild_host_check witnessLinuxBuilder "linux" 0 7).2
      (by decide)).2⟩

/-! ### Dependency dump lookup (build.py lines 1488-1502)

`GetDependencyJson` runs gyp in dump mode (its status is ignored by the
source), then reads `dump.json` from `self.BuildOutputRootDir()`, falling
back to `self.GypCWD()` when absent there, and `open` raises when the file
is absent at both.  The file system is the predicate `fs`, the parsed
contents the function `load`. -/

/-- Embeds `os.path.join(d, 'dump.json')`. -/
def dumpJsonPath (d : String) : String := d ++ "/dump.json"

/-- The failure of `open(json_path, 'r')` on a missing file. -/
inductive DepJsonError where
  | missingDumpFile (path : String)
deriving DecidableEq

/-- Embeds `DumpDependencyBuilder.GetDependencyJson` (lines 1497-1502),
after the generator has run: look under the build-output root first, then
under the gyp working directory, and fail when the chosen path is absent. -/
def GetDependencyJson {α : Type} (fs : String → Bool) (load : String → α)
    (buildOutputRootDir gypCWD : String) : Except DepJsonError α :=
  let jsonPath := dumpJsonPath buildOutputRootDir
  let jsonPath := if fs jsonPath then jsonPath else dumpJsonPath gypCWD
  if fs jsonPath then .ok (load jsonPath) else .error (.missingDumpFile jsonPath)

/-- C9: the dump output is looked up first under the build-output root,
then under the generator working directory, and the lookup fails exactly
when the file is absent at both locations. -/
theorem getDependencyJson_two_locations {α : Type} (fs : String → Bool)
    (load : String → α) (buildOutputRootDir gypCWD : String) :
    (fs (dumpJsonPath buildOutputRootDir) = true →
        GetDependencyJson fs load buildOutputRootDir gypCWD =
          .ok (load (dumpJsonPath buildOutputRootDir))) ∧
      (fs (dumpJsonPath buildOutputRootDir) = false →
        fs (dumpJsonPath gypCWD) = true →
        GetDependencyJson fs load buildOutputRootDir gypCWD =
          .ok (load (dumpJsonPath gypCWD))) ∧
      (fs (dumpJsonPath buildOutputRootDir) = false →
        fs (dumpJsonPath gypCWD) = false →
        GetDependencyJson fs load buildOutputRootDir gypCWD =
          .error (.missingDumpFile (dumpJsonPath gypCWD))) := by
  refine ⟨?_, ?_, ?_⟩
  · intro h1
    simp [GetDependencyJson, h1]
  · intro h1 h2
    simp [GetDependencyJson, h1, h2]
  · intro h1 h2
    simp [GetDependencyJson, h1, h2]

/-- Witness for C9 on a concrete file system holding only the fallback
copy: the dump is loaded from the gyp working directory, and with an empty
file system the lookup fails. -/
theorem getDependencyJson_two_locations_witness :
    GetDependencyJson (fun p => p = "cwd/dump.json") (fun _ => 5)
        "out" "cwd" = Except.ok 5 ∧
      GetDependencyJson (fun _ => false) (fun _ => (5 : Nat)) "out" "cwd" =
        Except.error (.missingDumpFile (dumpJsonPath "cwd")) :=
  ⟨((getDependencyJson_two_locations (fun p => decide (p = "cwd/dump.json"))
        (fun _ => (5 : Nat)) "out" "cwd").2.1 (by decide) (by decide)),
    ((getDependencyJson_two_locations (fun _ => false)
        (fun _ => (5 : Nat)) "out" "cwd").2.2 rfl rfl)⟩

/-! ### Build flags (build.py lines 1569-1589, 2043-2056)

`_FindBuildFlags` yields the raw declared defaults from
`common_variables.gypi` (Python ints or strings).
`_ParseCommandLineArgs` installs each flag as an argparse option whose
default is `int(default_value)` when that conversion succeeds and the raw
value otherwise.  `GetActiveBuildFlags` then compares the raw declared
default against `getattr(args, k)`. -/

/-- A gyp variable value: a Python int or str. -/
inductive FlagVal where
  | intVal (n : Int)
  | strVal (s : String)
deriving DecidableEq

/-- Decimal digits to a number; `none` on a non-digit.  Auxiliary for the
model of Python's `int()`. -/
def digitsToNat : List Char → Nat → Option Nat
  | [], acc => some acc
  | c :: cs, acc =>
    if c.isDigit then digitsToNat cs (acc * 10 + (c.toNat - '0'.toNat))
    else none

/-- Model of Python's `int(s)` on plain decimal strings (an optional minus
sign followed by digits); other accepted Python forms (whitespace, `+`)
do not occur in gyp defaults and raise in the model as in the source. -/
def pyIntOfString (s : String) : Option Int :=
  match s.data with
  | '-' :: cs => if cs.isEmpty then none else (digitsToNat cs 0).map (fun n => -(n : Int))
  | cs => if cs.isEmpty then none else (digitsToNat cs 0).map (fun n => (n : Int))

/-- Embeds the default coercion of `_ParseCommandLineArgs` (lines
2049-2052): `int(default_value)` when that succeeds, otherwise the value
unchanged. -/
def convertDefault : FlagVal → FlagVal
  | .intVal n => .intVal n
  | .strVal s =>
    match pyIntOfString s with
    | some n => .intVal n
    | none => .strVal s

/-- Embeds `BuildState.GetActiveBuildFlags` (lines 1569-1589): of the
possible build flags (`possible`, the raw declared defaults), keep those
whose command-line value `args k` differs from the declared default, with
their command-line value. -/
def GetActiveBuildFlags (possible : List (String × FlagVal))
    (args : String → FlagVal) : List (String × FlagVal) :=
  possible.filterMap fun kv =>
    if kv.2 ≠ args kv.1 then some (kv.1, args kv.1) else none

/-- Embeds what argparse resolves for a declared flag when the command
line carries no override: the converted default installed at line 2053
(`default=default_converted`).  The catch-all value for undeclared names
is never consulted. -/
def noOverrideArgs (possible : List (String × FlagVal)) (k : String) : FlagVal :=
  match (possible.find? (fun kv => decide (kv.1 = k))).map Prod.snd with
  | some v => convertDefault v
  | none => .strVal ""

/-- C7 background law (shared, not a claim theorem): membership in the
active set is exactly "declared and resolved differently from the raw
declared default". -/
lemma getActiveBuildFlags_mem (possible : List (String × FlagVal))
    (args : String → FlagVal) (k : String) (w : FlagVal) :
    (k, w) ∈ GetActiveBuildFlags possible args ↔
      (∃ v, (k, v) ∈ possible ∧ v ≠ args k) ∧ w = args k := by
  simp only [GetActiveBuildFlags, List.mem_filterMap]
  constructor
  · rintro ⟨⟨k0, v0⟩, hmem, hif⟩
    by_cases hne : v0 ≠ args k0
    · simp only [if_pos hne, Option.some.injEq, Prod.mk.injEq] at hif
      rcases hif with ⟨rfl, rfl⟩
      exact ⟨⟨v0, hmem, hne⟩, rfl⟩
    · simp [if_neg hne] at hif
  · rintro ⟨⟨v, hmem, hne⟩, rfl⟩
    exact ⟨(k, v), hmem, by simp [if_pos hne]⟩

/-- C7 fails on the code: with the single declared flag `myflag` whose
raw default is the string `'123'`, a run with no command-line overrides
resolves the flag to the coerced integer `123`; the raw string default
compares unequal to that integer, so `GetActiveBuildFlags` reports the
flag active — the active set is not empty, contradicting both the claim
and the function's own docstring ("active if it is specified on the
command line AND its value as specified is different from the default"). -/
theorem getActiveBuildFlags_no_override_bug :
    GetActiveBuildFlags [("myflag", FlagVal.strVal "123")]
        (noOverrideArgs [("myflag", FlagVal.strVal "123")]) =
        [("myflag", FlagVal.intVal 123)] ∧
      GetActiveBuildFlags [("myflag", FlagVal.strVal "123")]
        (noOverrideArgs [("myflag", FlagVal.strVal "123")]) ≠ [] := by
  constructor
  · decide
  · decide

/-! ### Configuration resolver (`BuildState._FindConfigurationsForOS`,
build.py lines 1654-1741)

The os.gypi document is a nest of dictionaries; the traversal is a
breadth-first worklist (`dicts_to_eval`, popped from the front, children
appended at the back) that descends `target_defaults` and the selected
branch of every `conditions` entry, collects the non-abstract names of
every `configurations` mapping, and remembers the last
`default_configuration` value seen.  Afterwards the names are sorted and
the remembered default, when among them, is moved to the front; a default
naming no collected configuration is silently ignored.

`eval(predicate, gyp_globals)` binds exactly `OS`, `flavor` and
`GENERATOR` (lines 1687-1692); predicates are modelled as an expression
tree over those three variables, as the spec's design notes direct. -/

/-- The three variables bound while evaluating a `conditions` predicate. -/
structure GypEnv where
  osName : String
  flavor : String
  generator : String
deriving DecidableEq

/-- Predicate language of `conditions` entries: comparisons of the three
bound variables with string literals, and boolean connectives. -/
inductive GypCond where
  | osIs (s : String)
  | flavorIs (s : String)
  | generatorIs (s : String)
  | negation (c : GypCond)
  | conj (a b : GypCond)
  | disj (a b : GypCond)
deriving DecidableEq

/-- Evaluates a predicate under the bindings of lines 1687-1692. -/
def evalCond (env : GypEnv) : GypCond → Bool
  | .osIs s => env.osName = s
  | .flavorIs s => env.flavor = s
  | .generatorIs s => env.generator = s
  | .negation c => !evalCond env c
  | .conj a b => evalCond env a && evalCond env b
  | .disj a b => evalCond env a || evalCond env b

mutual

/-- One key/value pair of an os.gypi dictionary, restricted to the four
keys the traversal recognises (lines 1703-1728); unrecognised keys are
ignored by the source loop and are omitted from the model. -/
inductive GypEntry where
  | targetDefaults (d : GypDict)
  | conditions (cs : GypConds)
  | configurations (cs : List (String × Bool))
  | defaultConfiguration (v : String)

/-- An os.gypi dictionary: its entries in iteration order. -/
inductive GypDict where
  | nil
  | cons (e : GypEntry) (es : GypDict)

/-- A `conditions` list: each entry is a predicate, a true-branch dict and
an optional else-branch dict (`none` models a two-element condition). -/
inductive GypConds where
  | nil
  | cons (c : GypCond) (t : GypDict) (els : Option GypDict) (cs : GypConds)

end

/-- Truthiness of a dict, for the `elif else_dict:` test (line 1720). -/
def dictIsEmpty : GypDict → Bool
  | .nil => true
  | .cons _ _ => false

/-- Configuration names contributed directly by one dict's
`configurations` entries (lines 1722-1726): the non-abstract names, in
entry order. -/
def dictNames : GypDict → List String
  | .nil => []
  | .cons (.configurations cs) es =>
    (cs.filter (fun c => !c.2)).map Prod.fst ++ dictNames es
  | .cons _ es => dictNames es

/-- The `default_configuration` values assigned while visiting one dict
(line 1727-1728), in entry order. -/
def dictDefaults : GypDict → List String
  | .nil => []
  | .cons (.defaultConfiguration v) es => v :: dictDefaults es
  | .cons _ es => dictDefaults es

/-- Children contributed by a `conditions` entry (lines 1710-1721): the
true branch when the predicate holds, otherwise the else branch if it is
a non-empty dict. -/
def condsChildren (env : GypEnv) : GypConds → List GypDict
  | .nil => []
  | .cons c t els cs =>
    (if evalCond env c then [t]
     else
       match els with
       | some d => if dictIsEmpty d then [] else [d]
       | none => []) ++ condsChildren env cs

/-- Dicts appended to the worklist while visiting one dict (lines
1704-1721): `target_defaults` values and selected condition branches, in
entry order. -/
def dictChildren (env : GypEnv) : GypDict → List GypDict
  | .nil => []
  | .cons (.targetDefaults d) es => d :: dictChildren env es
  | .cons (.conditions cs) es => condsChildren env cs ++ dictChildren env es
  | .cons _ es => dictChildren env es

mutual

/-- Weight of a dict, for the termination of the worklist traversal. -/
def dictSize : GypDict → Nat
  | .nil => 1
  | .cons e es => entrySize e + dictSize es

/-- Weight of an entry. -/
def entrySize : GypEntry → Nat
  | .targetDefaults d => 1 + dictSize d
  | .conditions cs => 1 + condsSize cs
  | .configurations _ => 1
  | .defaultConfiguration _ => 1

/-- Weight of a conditions list. -/
def condsSize : GypConds → Nat
  | .nil => 0
  | .cons _ t els cs => 1 + dictSize t + optDictSize els + condsSize cs

/-- Weight of an optional dict. -/
def optDictSize : Option GypDict → Nat
  | none => 0
  | some d => dictSize d

end

/-- Weight of a worklist of dicts. -/
def worklistWeight : List GypDict → Nat
  | [] => 0
  | d :: ds => dictSize d + worklistWeight ds

lemma worklistWeight_append (l₁ l₂ : List GypDict) :
    worklistWeight (l₁ ++ l₂) = worklistWeight l₁ + worklistWeight l₂ := by
  induction l₁ with
  | nil => simp [worklistWeight]
  | cons d ds ih => simp [worklistWeight, ih]; omega

lemma worklistWeight_condsChildren (env : GypEnv) :
    ∀ cs : GypConds, worklistWeight (condsChildren env cs) ≤ condsSize cs
  | .nil => by simp [condsChildren, condsSize, worklistWeight]
  | .cons c t els cs => by
    have ih := worklistWeight_condsChildren env cs
    simp only [condsChildren, condsSize, worklistWeight_append]
    split
    · simp only [worklistWeight]
      omega
    · match els with
      | none => simp only [worklistWeight, optDictSize]; omega
      | some d =>
        simp only [optDictSize]
        split
        · simp only [worklistWeight]; omega
        · simp only [worklistWeight]; omega

lemma worklistWeight_dictChildren (env : GypEnv) :
    ∀ d : GypDict, worklistWeight (dictChildren env d) < dictSize d
  | .nil => by simp [dictChildren, dictSize, worklistWeight]
  | .cons e es => by
    have ih := worklistWeight_dictChildren env es
    cases e with
    | targetDefaults d' =>
      simp only [dictChildren, worklistWeight, dictSize, entrySize]
      omega
    | conditions cs =>
      have := worklistWeight_condsChildren env cs
      simp only [dictChildren, worklistWeight_append, dictSize, entrySize]
      omega
    | configurations cs =>
      simp only [dictChildren, dictSize, entrySize]
      omega
    | defaultConfiguration v =>
      simp only [dictChildren, dictSize, entrySize]
      omega

/-- The worklist traversal of lines 1699-1728: pops the front dict,
collects its configuration names and default assignments, and appends its
children at the back.  Returns the collected names and the default
assignments, each in traversal order. -/
def bfsCollect (env : GypEnv) (wl : List GypDict) : List String × List String :=
  match wl with
  | [] => ([], [])
  | d :: rest =>
    let r := bfsCollect env (rest ++ dictChildren env d)
    (dictNames d ++ r.1, dictDefaults d ++ r.2)
termination_by worklistWeight wl
decreasing_by
  simp only [worklistWeight, worklistWeight_append]
  have := worklistWeight_dictChildren env d
  omega

/-! Python's `list.sort()` on strings, as a stable insertion sort by code
point; extensionally this computes the same list as any stable sort by
the same order, and string entries that compare equal are identical. -/

/-- Python string `<` (lexicographic by code point), on character lists. -/
def charListLt : List Char → List Char → Bool
  | [], [] => false
  | [], _ :: _ => true
  | _ :: _, [] => false
  | a :: as, b :: bs =>
    if a < b then true
    else if b < a then false
    else charListLt as bs

/-- Python string `<`. -/
def pyStrLt (a b : String) : Bool := charListLt a.data b.data

/-- Insert into a sorted list, after any element not greater. -/
def sortedInsert (a : String) : List String → List String
  | [] => [a]
  | b :: l => if pyStrLt a b then a :: b :: l else b :: sortedInsert a l

/-- Embeds `configuration_names.sort()` (line 1732). -/
def sortStrings : List String → List String
  | [] => []
  | a :: l => sortedInsert a (sortStrings l)

lemma mem_sortedInsert (a x : String) (l : List String) :
    x ∈ sortedInsert a l ↔ x = a ∨ x ∈ l := by
  induction l with
  | nil => simp [sortedInsert]
  | cons b l ih =>
    simp only [sortedInsert]
    split
    · simp
    · simp [ih]
      tauto

lemma mem_sortStrings (x : String) (l : List String) :
    x ∈ sortStrings l ↔ x ∈ l := by
  induction l with
  | nil => simp [sortStrings]
  | cons a l ih => simp [sortStrings, mem_sortedInsert, ih]

/-- Embeds `BuildState._FindConfigurationsForOS` (lines 1654-1741): `doc`
is the parsed os.gypi root (`none` when the file does not exist, line
1679-1680).  Traverse, sort the collected names, and move the remembered
default to the front when it is among them. -/
def FindConfigurationsForOS (env : GypEnv) (doc : Option GypDict) :
    List String :=
  match doc with
  | none => []
  | some root =>
    let collected := bfsCollect env [root]
    let sorted := sortStrings collected.1
    match collected.2.getLast? with
    | some d => if d ∈ sorted then d :: sorted.erase d else sorted
    | none => sorted

/-- Modelled from the spec's ordering words, for comparison with the
source embedding: "sort collected names lexicographically, then move the
remembered default to the front if present among collected names". -/
def specConfigurationOrder (collectedNames : List String)
    (dflt : Option String) : List String :=
  let sorted := sortStrings collectedNames
  match dflt with
  | some d => if d ∈ sorted then d :: sorted.erase d else sorted
  | none => sorted

/-- The os.gypi document of end-to-end scenario A:
`configurations: {dbg: {}, opt: {}}` with `default_configuration: opt`. -/
def scenarioADoc : GypDict :=
  .cons (.configurations [("dbg", false), ("opt", false)])
    (.cons (.defaultConfiguration "opt") .nil)

/-- C5: configuration resolution is a pure function of the document and
the (platform, flavor, generator) triple whose result is the collected
non-abstract names sorted lexicographically with the remembered default
moved to the front when present; scenario A resolves to
`["opt", "dbg"]` for every triple. -/
theorem findConfigurations_ordering (env : GypEnv) (root : GypDict) :
    FindConfigurationsForOS env (some root) =
        specConfigurationOrder (bfsCollect env [root]).1
          (bfsCollect env [root]).2.getLast? ∧
      (∀ d, (bfsCollect env [root]).2.getLast? = some d →
        d ∈ (bfsCollect env [root]).1 →
        (FindConfigurationsForOS env (some root)).head? = some d) ∧
      (∀ env2 : GypEnv,
        FindConfigurationsForOS env2 (some scenarioADoc) = ["opt", "dbg"]) := by
  refine ⟨rfl, ?_, ?_⟩
  · intro d hlast hmem
    have hmem2 : d ∈ sortStrings (bfsCollect env [root]).1 :=
      (mem_sortStrings _ _).mpr hmem
    simp [FindConfigurationsForOS, hlast, hmem2]
  · intro env2
    simp [FindConfigurationsForOS, bfsCollect, scenarioADoc, dictChildren,
      dictNames, dictDefaults, sortStrings, sortedInsert, pyStrLt, charListLt,
      List.getLast?, List.erase]

/-- Witness for C5: a concrete triple together with the concrete scenario
facts, read off the theorem itself. -/
theorem findConfigurations_ordering_witness :
    (bfsCollect ⟨"linux", "", "ninja"⟩ [scenarioADoc]).2.getLast? =
        some "opt" ∧
      "opt" ∈ (bfsCollect ⟨"linux", "", "ninja"⟩ [scenarioADoc]).1 ∧
      (FindConfigurationsForOS ⟨"linux", "", "ninja"⟩
        (some scenarioADoc)).head? = some "opt" ∧
      FindConfigurationsForOS ⟨"linux", "", "ninja"⟩ (some scenarioADoc) =
        ["opt", "dbg"] :=
  ⟨by simp [bfsCollect, scenarioADoc, dictChildren, dictNames, dictDefaults,
      List.getLast?],
    by simp [bfsCollect, scenarioADoc, dictChildren, dictNames, dictDefaults],
    (findConfigurations_ordering ⟨"linux", "", "ninja"⟩ scenarioADoc).2.1 "opt"
      (by simp [bfsCollect, scenarioADoc, dictChildren, dictNames,
        dictDefaults, List.getLast?])
      (by simp [bfsCollect, scenarioADoc, dictChildren, dictNames,
        dictDefaults]),
    (findConfigurations_ordering ⟨"linux", "", "ninja"⟩ scenarioADoc).2.2
      ⟨"linux", "", "ninja"⟩⟩

/-- C6: a remembered default that names no collected configuration is
silently ignored — resolution returns the sorted collected names
unchanged (and, the embedding being total, no error is raised). -/
theorem findConfigurations_unmatched_default_ignored (env : GypEnv)
    (root : GypDict) (d : String)
    (hlast : (bfsCollect env [root]).2.getLast? = some d)
    (hnot : d ∉ (bfsCollect env [root]).1) :
    FindConfigurationsForOS env (some root) =
      sortStrings (bfsCollect env [root]).1 := by
  have hnot2 : d ∉ sortStrings (bfsCollect env [root]).1 := fun h =>
    hnot ((mem_sortStrings _ _).mp h)
  simp [FindConfigurationsForOS, hlast, hnot2]

/-- The document for the C6 witness: one configuration `dbg` and a
default naming the undiscovered configuration `foo`. -/
def unmatchedDefaultDoc : GypDict :=
  .cons (.configurations [("dbg", false)])
    (.cons (.defaultConfiguration "foo") .nil)

/-- Witness for C6: with the default naming the absent `foo`, resolution
returns the sorted collected names `["dbg"]`. -/
theorem findConfigurations_unmatched_default_witness :
    FindConfigurationsForOS ⟨"linux", "", "ninja"⟩
        (some unmatchedDefaultDoc) = ["dbg"] := by
  have h := findConfigurations_unmatched_default_ignored
    ⟨"linux", "", "ninja"⟩ unmatchedDefaultDoc "foo"
    (by simp [bfsCollect, unmatchedDefaultDoc, dictChildren, dictNames,
      dictDefaults, List.getLast?])
    (by simp [bfsCollect, unmatchedDefaultDoc, dictChildren, dictNames,
      dictDefaults])
  rw [h]
  simp [bfsCollect, unmatchedDefaultDoc, dictChildren, dictNames,
    dictDefaults, sortStrings, sortedInsert]

end Ion
